import Mathlib

/-!
Shallow embedding of the FedLab `PackageProcessor` wire protocol
(`fedlab_core/communicator/processor.py`) and the parts of the `Package`
data model and header configuration it depends on.

The channel primitive (`torch.distributed.send` / `recv`) is modelled by
traces: `send_package` returns the ordered list of buffers it puts on the
wire, and `recv_package` is parameterised by an environment `Chan` that
supplies the contents filled into each receive buffer, returning both the
decoded result and the ordered list of receive calls issued.
-/

namespace FedLab

/-- Error taxonomy of the package layer. -/
inductive PackageError
  | InvalidInput
  | MalformedHeader
  | LengthMismatch
deriving DecidableEq, Repr, Inhabited

/-- Modelled from the spec: header width (`config.HEADER_SIZE` lives in the
missing `package.py`); the header has exactly the 4 fields of §3. -/
def HEADER_SIZE : Nat := 4

/-- Modelled from the spec: index of `sender_rank` in the header. -/
def HEADER_SENDER_RANK_IDX : Nat := 0

/-- Modelled from the spec: index of `receiver_rank` in the header
(`config.HEADER_RECEIVER_RANK_IDX` in the missing `package.py`). -/
def HEADER_RECEIVER_RANK_IDX : Nat := 1

/-- Modelled from the spec: index of `boundary_count` / slice size in the
header (`config.HEADER_SLICE_SIZE_IDX` in the missing `package.py`). -/
def HEADER_SLICE_SIZE_IDX : Nat := 2

/-- Modelled from the spec: index of `message_code` in the header. -/
def HEADER_MESSAGE_CODE_IDX : Nat := 3

/-- Split a flat buffer into consecutive slices of the given lengths, in
order: slice `i` has `boundaries[i]` elements and starts where slice
`i-1` ended. -/
def splitByBoundaries {α : Type} : List Int → List α → List (List α)
  | [], _ => []
  | b :: bs, buf => buf.take b.toNat :: splitByBoundaries bs (buf.drop b.toNat)

/-- Modelled from the spec: `Package.parse_content(boundaries, buffer)`
(the `Package` class lives in the missing `package.py`). Splits the flat
payload buffer into consecutive slices of lengths `boundaries[0], ...`
with no gaps or overlaps; fails with `LengthMismatch` when
`sum(boundaries) != len(buffer)`. -/
def parse_content {α : Type} (boundaries : List Int) (buffer : List α) :
    Except PackageError (List (List α)) :=
  if boundaries.sum = (buffer.length : Int) then
    .ok (splitByBoundaries boundaries buffer)
  else
    .error .LengthMismatch

/-- The boundary list derived from a list of buffers: per-buffer lengths. -/
def boundaries_of {α : Type} (B : List (List α)) : List Int :=
  B.map (fun b => (b.length : Int))


/-- Modelled from the spec: `Package.parse_header(raw_header_buffer)`
(the `Package` class lives in the missing `package.py`). Decodes the
fixed-width header buffer into its four integer fields in the field order
of §3; fails with `MalformedHeader` when the buffer length is not exactly
`HEADER_SIZE`. -/
def parse_header (buffer : List Int) : Except PackageError (Int × Int × Int × Int) :=
  if buffer.length = HEADER_SIZE then
    .ok (buffer.getD HEADER_SENDER_RANK_IDX 0, buffer.getD HEADER_RECEIVER_RANK_IDX 0,
         buffer.getD HEADER_SLICE_SIZE_IDX 0, buffer.getD HEADER_MESSAGE_CODE_IDX 0)
  else
    .error .MalformedHeader

/-- Element type of a tensor put on or read from the wire
(`torch.zeros` defaults to a floating dtype; the boundary table is
explicitly `int32`). -/
inductive DType
  | float32
  | int32
deriving DecidableEq, Repr, Inhabited

/-- Wrap-around of `np.array(..., dtype=np.int32)` applied to one entry. -/
def toInt32 (x : Int) : Int := (x + 2 ^ 31) % 2 ^ 32 - 2 ^ 31

/-- One `dist.send(data, dst)` call: the transmitted buffer, its dtype and
the destination rank. -/
structure SendEvent where
  data : List Int
  dtype : DType
  dst : Int
deriving DecidableEq, Repr, Inhabited

/-- One `dist.recv(buffer, src)` call: the requested buffer size (the
`torch.zeros` size argument), the buffer dtype, and the `src` argument
(`none` is the wildcard). -/
structure RecvCall where
  size : Int
  dtype : DType
  src : Option Int
deriving DecidableEq, Repr, Inhabited

/-- The in-memory `Package` as `send_package` consumes it: the header
tensor, the list of slice lengths, and the flat content tensor. -/
structure Package where
  header : List Int
  slices : List Int
  content : List Int
deriving DecidableEq, Repr, Inhabited

/-- `PackageProcessor.send_package(package, dst)`: `send_header` writes
`dst` into `header[HEADER_RECEIVER_RANK_IDX]` and sends the header; then,
iff `header[HEADER_SLICE_SIZE_IDX] > 0`, `send_slices` sends the slice
table as an `int32` tensor and `send_content` sends the flat content.
Returns the package as mutated plus the ordered send trace. -/
def send_package (package : Package) (dst : Int) : Package × List SendEvent :=
  let header := package.header.set HEADER_RECEIVER_RANK_IDX dst
  let package := { package with header := header }
  let headerEv : SendEvent := ⟨header, .float32, dst⟩
  if header.getD HEADER_SLICE_SIZE_IDX 0 > 0 then
    (package, [headerEv, ⟨package.slices.map toInt32, .int32, dst⟩,
               ⟨package.content, .float32, dst⟩])
  else
    (package, [headerEv])

/-- The channel environment: `chan k i` is the value the channel fills
into element `i` of the buffer passed to the `k`-th `dist.recv` call. -/
def Chan : Type := Nat → Nat → Int

/-- The buffer contents after the `k`-th `dist.recv` call filled a buffer
allocated with `torch.zeros(size=(size,))`. -/
def recvFill (chan : Chan) (k : Nat) (size : Int) : List Int :=
  (List.range size.toNat).map (chan k)

/-- `PackageProcessor.recv_package(src)`: `recv_header` receives a
`HEADER_SIZE`-wide buffer from `src` and decodes it with
`Package.parse_header`; iff the decoded `slices_size > 0`, `recv_slices`
receives an `int32` buffer of length `slices_size` from the decoded
`sender_rank`, then `recv_content` receives a buffer of length
`sum(slices)` from `sender_rank` and decodes it with
`Package.parse_content`. Returns the result triple plus the ordered
receive-call trace. -/
def recv_package (chan : Chan) (src : Option Int) :
    Except PackageError (Int × Int × Option (List (List Int))) × List RecvCall :=
  let headerCall : RecvCall := ⟨(HEADER_SIZE : Int), .float32, src⟩
  match parse_header (recvFill chan 0 (HEADER_SIZE : Int)) with
  | .error e => (.error e, [headerCall])
  | .ok (sender_rank, _receiver_rank, slices_size, message_code) =>
    if slices_size > 0 then
      let slices := recvFill chan 1 slices_size
      let slicesCall : RecvCall := ⟨slices_size, .int32, some sender_rank⟩
      let content_size := slices.sum
      let contentBuf := recvFill chan 2 content_size
      let contentCall : RecvCall := ⟨content_size, .float32, some sender_rank⟩
      match parse_content slices contentBuf with
      | .error e => (.error e, [headerCall, slicesCall, contentCall])
      | .ok content =>
          (.ok (sender_rank, message_code, some content),
           [headerCall, slicesCall, contentCall])
    else
      (.ok (sender_rank, message_code, none), [headerCall])

/-- A concrete channel environment for instantiations: the header
announces sender rank 0, one slice, message code 0; the slice table says
the single slice has 2 elements; every payload element is 5. -/
def chanDemo : Chan := fun k i =>
  if k = 0 then (if i = 2 then 1 else 0) else if k = 1 then 2 else 5

/-- A concrete channel environment whose header carries a negative slice
count. -/
def chanNeg : Chan := fun k i => if k = 0 ∧ i = 2 then -1 else 0

theorem splitByBoundaries_boundaries_of {α : Type} (B : List (List α)) :
    splitByBoundaries (boundaries_of B) B.flatten = B := by
  induction B with
  | nil => rfl
  | cons b bs ih =>
      simp only [boundaries_of, List.map_cons, List.flatten_cons, splitByBoundaries,
        Int.toNat_ofNat, List.take_left, List.drop_left] at *
      rw [ih]

theorem sum_boundaries_of {α : Type} (B : List (List α)) :
    (boundaries_of B).sum = (B.flatten.length : Int) := by
  induction B with
  | nil => rfl
  | cons b bs ih =>
      simp only [boundaries_of, List.map_cons, List.sum_cons, List.flatten_cons,
        List.length_append, Nat.cast_add] at *
      rw [ih]

/-- Claim C1: for every ordered list `B` of non-empty numeric buffers,
`parse_content` applied to the per-buffer-length boundary list of `B` and
the flat concatenation of `B` returns exactly `B`. -/
theorem parse_content_round_trip {α : Type} (B : List (List α))
    (_h : ∀ b ∈ B, b ≠ []) :
    parse_content (boundaries_of B) B.flatten = .ok B := by
  unfold parse_content
  rw [if_pos (sum_boundaries_of B), splitByBoundaries_boundaries_of]

/-- Witness for C1 at the concrete buffer list `[[1,2,3],[4,5]]`. -/
theorem parse_content_round_trip_witness :
    parse_content (boundaries_of [[1, 2, 3], [4, 5]])
      (List.flatten [[(1 : Int), 2, 3], [4, 5]]) = .ok [[1, 2, 3], [4, 5]] :=
  parse_content_round_trip [[1, 2, 3], [4, 5]] (by decide)

theorem recvFill_header (chan : Chan) :
    recvFill chan 0 (HEADER_SIZE : Int) = [chan 0 0, chan 0 1, chan 0 2, chan 0 3] := rfl

theorem parse_header_recvFill (chan : Chan) :
    parse_header (recvFill chan 0 (HEADER_SIZE : Int)) =
      .ok (chan 0 0, chan 0 1, chan 0 2, chan 0 3) := rfl

theorem recv_package_not_pos (chan : Chan) (src : Option Int)
    (h : ¬ 0 < chan 0 HEADER_SLICE_SIZE_IDX) :
    recv_package chan src =
      (.ok (chan 0 HEADER_SENDER_RANK_IDX, chan 0 HEADER_MESSAGE_CODE_IDX, none),
       [⟨(HEADER_SIZE : Int), .float32, src⟩]) := by
  unfold recv_package
  rw [parse_header_recvFill]
  dsimp only
  have h2 : ¬ chan 0 2 > 0 := h
  rw [if_neg h2]
  rfl

theorem recv_package_pos (chan : Chan) (src : Option Int)
    (h : 0 < chan 0 HEADER_SLICE_SIZE_IDX) :
    recv_package chan src =
      ((match parse_content (recvFill chan 1 (chan 0 HEADER_SLICE_SIZE_IDX))
            (recvFill chan 2 (recvFill chan 1 (chan 0 HEADER_SLICE_SIZE_IDX)).sum) with
        | .ok content =>
            .ok (chan 0 HEADER_SENDER_RANK_IDX, chan 0 HEADER_MESSAGE_CODE_IDX,
                 some content)
        | .error e => .error e),
       [⟨(HEADER_SIZE : Int), .float32, src⟩,
        ⟨chan 0 HEADER_SLICE_SIZE_IDX, .int32, some (chan 0 HEADER_SENDER_RANK_IDX)⟩,
        ⟨(recvFill chan 1 (chan 0 HEADER_SLICE_SIZE_IDX)).sum, .float32,
         some (chan 0 HEADER_SENDER_RANK_IDX)⟩]) := by
  unfold recv_package
  rw [parse_header_recvFill]
  simp only [HEADER_SLICE_SIZE_IDX, HEADER_SENDER_RANK_IDX, HEADER_MESSAGE_CODE_IDX]
  have h2 : chan 0 2 > 0 := h
  rw [if_pos h2]
  cases parse_content (recvFill chan 1 (chan 0 2))
      (recvFill chan 2 (recvFill chan 1 (chan 0 2)).sum) <;> rfl

theorem header_set_receiver_preserves (l : List Int) (i : Nat)
    (h : i ≠ HEADER_RECEIVER_RANK_IDX) :
    (l.set HEADER_RECEIVER_RANK_IDX dst).getD i 0 = l.getD i 0 := by
  simp [List.getD_eq_getElem?_getD, List.getElem?_set_ne (Ne.symm h)]

/-- Claim C7: `parse_content` fails with `LengthMismatch` exactly when the
sum of the boundary entries differs from the payload buffer's length, and
succeeds otherwise. -/
theorem parse_content_length_mismatch {α : Type} (boundaries : List Int)
    (buffer : List α) :
    (parse_content boundaries buffer = .error .LengthMismatch ↔
      boundaries.sum ≠ (buffer.length : Int)) ∧
    (boundaries.sum = (buffer.length : Int) ↔
      parse_content boundaries buffer = .ok (splitByBoundaries boundaries buffer)) := by
  unfold parse_content
  by_cases h : boundaries.sum = (buffer.length : Int) <;>
    simp [h]

theorem send_package_eq (package : Package) (dst : Int) :
    send_package package dst =
      ({ package with header := package.header.set HEADER_RECEIVER_RANK_IDX dst },
       if (package.header.set HEADER_RECEIVER_RANK_IDX dst).getD HEADER_SLICE_SIZE_IDX 0 > 0
       then
         [⟨package.header.set HEADER_RECEIVER_RANK_IDX dst, .float32, dst⟩,
          ⟨package.slices.map toInt32, .int32, dst⟩,
          ⟨package.content, .float32, dst⟩]
       else
         [⟨package.header.set HEADER_RECEIVER_RANK_IDX dst, .float32, dst⟩]) := by
  simp only [send_package]
  split <;> rfl

/-- Claim C2: `send_package` transmits the header exactly once,
unconditionally, as its first channel send; the boundary table followed by
the flat payload follow, in that strict order, iff the header's
`boundary_count` field is positive, and otherwise no further sends occur. -/
theorem send_package_phase_order (package : Package) (dst : Int) :
    (send_package package dst).2.head? =
      some ⟨package.header.set HEADER_RECEIVER_RANK_IDX dst, .float32, dst⟩ ∧
    (package.header.getD HEADER_SLICE_SIZE_IDX 0 > 0 →
      (send_package package dst).2 =
        [⟨package.header.set HEADER_RECEIVER_RANK_IDX dst, .float32, dst⟩,
         ⟨package.slices.map toInt32, .int32, dst⟩,
         ⟨package.content, .float32, dst⟩]) ∧
    (¬ package.header.getD HEADER_SLICE_SIZE_IDX 0 > 0 →
      (send_package package dst).2 =
        [⟨package.header.set HEADER_RECEIVER_RANK_IDX dst, .float32, dst⟩]) := by
  rw [send_package_eq]
  rw [header_set_receiver_preserves package.header HEADER_SLICE_SIZE_IDX (by decide)]
  by_cases h : package.header.getD HEADER_SLICE_SIZE_IDX 0 > 0
  · rw [if_pos h]
    exact ⟨rfl, fun _ => rfl, fun hn => absurd h hn⟩
  · rw [if_neg h]
    exact ⟨rfl, fun hp => absurd hp h, fun _ => rfl⟩

/-- Witness for C2 at a concrete package with two slices. -/
theorem send_package_phase_order_witness :
    (send_package ⟨[9, 0, 2, 7], [1, 1], [5, 6]⟩ 3).2 =
      [⟨[9, 3, 2, 7], .float32, 3⟩, ⟨[1, 1], .int32, 3⟩, ⟨[5, 6], .float32, 3⟩] :=
  (send_package_phase_order ⟨[9, 0, 2, 7], [1, 1], [5, 6]⟩ 3).2.1 (by decide)

/-- Claim C3: when the decoded header's `boundary_count` field equals 0,
`recv_package` performs no channel receive beyond the header phase and
returns `(sender_rank, message_code, content)` with `content` absent. -/
theorem recv_package_header_only (chan : Chan) (src : Option Int)
    (h : chan 0 HEADER_SLICE_SIZE_IDX = 0) :
    recv_package chan src =
      (.ok (chan 0 HEADER_SENDER_RANK_IDX, chan 0 HEADER_MESSAGE_CODE_IDX, none),
       [⟨(HEADER_SIZE : Int), .float32, src⟩]) :=
  recv_package_not_pos chan src (by simp [h])

/-- Witness for C3 on an all-zero channel environment. -/
theorem recv_package_header_only_witness :
    recv_package (fun _ _ => 0) none =
      (.ok (0, 0, none), [⟨(HEADER_SIZE : Int), .float32, none⟩]) :=
  recv_package_header_only (fun _ _ => 0) none rfl

/-- Claim C4: when the decoded header's `boundary_count` is positive, both
the boundary-table receive and the payload receive are issued with source
equal to the `sender_rank` decoded from the header, for every
caller-supplied `src` argument. -/
theorem recv_package_pins_sender (chan : Chan) (src : Option Int)
    (h : 0 < chan 0 HEADER_SLICE_SIZE_IDX) :
    (recv_package chan src).2.length = 3 ∧
    ((recv_package chan src).2.getD 1 default).src =
      some (chan 0 HEADER_SENDER_RANK_IDX) ∧
    ((recv_package chan src).2.getD 2 default).src =
      some (chan 0 HEADER_SENDER_RANK_IDX) := by
  rw [recv_package_pos chan src h]
  exact ⟨rfl, rfl, rfl⟩

/-- Witness for C4 on `chanDemo` with a wildcard `src`. -/
theorem recv_package_pins_sender_witness :
    (recv_package chanDemo none).2.length = 3 ∧
    ((recv_package chanDemo none).2.getD 1 default).src = some 0 ∧
    ((recv_package chanDemo none).2.getD 2 default).src = some 0 :=
  recv_package_pins_sender chanDemo none (by decide)

/-- Claim C5: when the decoded `boundary_count` is positive, the
payload-phase receive buffer is requested with length exactly the sum of
the decoded boundary table, and the result is decoded by passing that
boundary table and that buffer to `Package.parse_content`. -/
theorem recv_package_content_phase (chan : Chan) (src : Option Int)
    (h : 0 < chan 0 HEADER_SLICE_SIZE_IDX) :
    ((recv_package chan src).2.getD 2 default).size =
      (recvFill chan 1 (chan 0 HEADER_SLICE_SIZE_IDX)).sum ∧
    (recv_package chan src).1 =
      (match parse_content (recvFill chan 1 (chan 0 HEADER_SLICE_SIZE_IDX))
          (recvFill chan 2 (recvFill chan 1 (chan 0 HEADER_SLICE_SIZE_IDX)).sum) with
       | .ok content =>
           .ok (chan 0 HEADER_SENDER_RANK_IDX, chan 0 HEADER_MESSAGE_CODE_IDX,
                some content)
       | .error e => .error e) := by
  rw [recv_package_pos chan src h]
  exact ⟨rfl, rfl⟩

/-- Witness for C5 on `chanDemo`: one slice of length 2, payload `[5, 5]`. -/
theorem recv_package_content_phase_witness :
    ((recv_package chanDemo none).2.getD 2 default).size = 2 ∧
    (recv_package chanDemo none).1 = .ok (0, 0, some [[5, 5]]) :=
  recv_package_content_phase chanDemo none (by decide)

/-- Claim C6: `send_package` writes `dst` into the header's
`receiver_rank` field before transmitting it, so the header buffer put on
the wire carries `receiver_rank = dst`. -/
theorem send_header_sets_receiver (package : Package) (dst : Int)
    (h : package.header.length = HEADER_SIZE) :
    ((send_package package dst).2.getD 0 default).data =
      package.header.set HEADER_RECEIVER_RANK_IDX dst ∧
    ((send_package package dst).2.getD 0 default).data.getD
      HEADER_RECEIVER_RANK_IDX 0 = dst := by
  rw [send_package_eq]
  have hlen : HEADER_RECEIVER_RANK_IDX < package.header.length := by
    rw [h]; decide
  have hset : (package.header.set HEADER_RECEIVER_RANK_IDX dst).getD
      HEADER_RECEIVER_RANK_IDX 0 = dst := by
    simp [List.getD_eq_getElem?_getD, List.getElem?_set_self, hlen]
  by_cases hc : (package.header.set HEADER_RECEIVER_RANK_IDX dst).getD
      HEADER_SLICE_SIZE_IDX 0 > 0
  · rw [if_pos hc]
    exact ⟨rfl, hset⟩
  · rw [if_neg hc]
    exact ⟨rfl, hset⟩

/-- Witness for C6 at a concrete header-only package sent to rank 3. -/
theorem send_header_sets_receiver_witness :
    ((send_package ⟨[9, 0, 0, 7], [], []⟩ 3).2.getD 0 default).data.getD
      HEADER_RECEIVER_RANK_IDX 0 = 3 :=
  (send_header_sets_receiver ⟨[9, 0, 0, 7], [], []⟩ 3 (by decide)).2

/-- Claim C8: the boundary-table phase is an integer-typed buffer of
length exactly `boundary_count` on both sides: `send_package` transmits
the slice table as an `int32` tensor with one entry per slice, and
`recv_package` receives it into an `int32` buffer of length the decoded
`boundary_count`. -/
theorem boundary_table_integer_typed (package : Package) (dst : Int)
    (chan : Chan) (src : Option Int)
    (hs : package.header.getD HEADER_SLICE_SIZE_IDX 0 > 0)
    (hr : 0 < chan 0 HEADER_SLICE_SIZE_IDX) :
    ((send_package package dst).2.getD 1 default).dtype = .int32 ∧
    ((send_package package dst).2.getD 1 default).data.length =
      package.slices.length ∧
    ((recv_package chan src).2.getD 1 default).dtype = .int32 ∧
    ((recv_package chan src).2.getD 1 default).size =
      chan 0 HEADER_SLICE_SIZE_IDX := by
  rw [send_package_eq, recv_package_pos chan src hr]
  have hs' : (package.header.set HEADER_RECEIVER_RANK_IDX dst).getD
      HEADER_SLICE_SIZE_IDX 0 > 0 := by
    rw [header_set_receiver_preserves package.header HEADER_SLICE_SIZE_IDX (by decide)]
    exact hs
  rw [if_pos hs']
  exact ⟨rfl, by simp, rfl, rfl⟩

/-- Witness for C8 at a two-slice package and `chanDemo`. -/
theorem boundary_table_integer_typed_witness :
    ((send_package ⟨[9, 0, 2, 7], [1, 1], [5, 6]⟩ 3).2.getD 1 default).dtype =
      DType.int32 ∧
    ((send_package ⟨[9, 0, 2, 7], [1, 1], [5, 6]⟩ 3).2.getD 1 default).data.length = 2 ∧
    ((recv_package chanDemo none).2.getD 1 default).dtype = DType.int32 ∧
    ((recv_package chanDemo none).2.getD 1 default).size = 1 :=
  boundary_table_integer_typed ⟨[9, 0, 2, 7], [1, 1], [5, 6]⟩ 3 chanDemo none
    (by decide) (by decide)

/-- Claim C9: `send_package` mutates the caller's package only at the
header's `receiver_rank` index: the slices list, the content buffer, and
every header entry at an index other than `receiver_rank` are unchanged. -/
theorem send_package_frame (package : Package) (dst : Int) :
    (send_package package dst).1.slices = package.slices ∧
    (send_package package dst).1.content = package.content ∧
    (send_package package dst).1.header =
      package.header.set HEADER_RECEIVER_RANK_IDX dst ∧
    ∀ i : Nat, i ≠ HEADER_RECEIVER_RANK_IDX →
      (send_package package dst).1.header.getD i 0 = package.header.getD i 0 := by
  rw [send_package_eq]
  exact ⟨rfl, rfl, rfl, fun i hi => header_set_receiver_preserves package.header i hi⟩

/-- Witness for C9 at a concrete package: the slices and the slice-count
header field survive the send. -/
theorem send_package_frame_witness :
    (send_package ⟨[9, 0, 2, 7], [2], [4, 4]⟩ 3).1.slices = [2] ∧
    (send_package ⟨[9, 0, 2, 7], [2], [4, 4]⟩ 3).1.header.getD 2 0 = 2 :=
  ⟨(send_package_frame ⟨[9, 0, 2, 7], [2], [4, 4]⟩ 3).1,
   ((send_package_frame ⟨[9, 0, 2, 7], [2], [4, 4]⟩ 3).2.2.2 2
     (by decide)).trans (by decide)⟩

/-- Claim C10: when the decoded header's `boundary_count` field is
negative, `recv_package` raises no error: the guard tests strictly
`> 0`, so the call takes the header-only path, returns `content = none`,
and issues no further channel receives. -/
theorem recv_package_negative_count (chan : Chan) (src : Option Int)
    (h : chan 0 HEADER_SLICE_SIZE_IDX < 0) :
    recv_package chan src =
      (.ok (chan 0 HEADER_SENDER_RANK_IDX, chan 0 HEADER_MESSAGE_CODE_IDX, none),
       [⟨(HEADER_SIZE : Int), .float32, src⟩]) :=
  recv_package_not_pos chan src (not_lt.mpr (le_of_lt h))

/-- Witness for C10 on `chanNeg`, whose header carries slice count `-1`. -/
theorem recv_package_negative_count_witness :
    recv_package chanNeg none =
      (.ok (0, 0, none), [⟨(HEADER_SIZE : Int), .float32, none⟩]) :=
  recv_package_negative_count chanNeg none (by decide)

end FedLab
